import Mathlib

/-!
# Verification of the blogger2hugomd conversion pipeline

A shallow embedding of `src/script.js`, a Blogger-XML-to-Hugo-Markdown
converter, together with proofs of the specified properties.

JavaScript strings are modelled as lists of Unicode code points
(`List Nat`); string operations used by the script (regex replacement,
`trim`, `toLowerCase`, `split`, `includes`, template concatenation) are
translated into structurally recursive functions on such lists.  Parsed
feed entries (the output of `xml2js`, which wraps every element in a
one-element array) are modelled by a flat structure holding exactly the
fields the script reads.
-/

set_option autoImplicit false

namespace Blogger2Hugo

/-- A JavaScript string: the list of its Unicode code points. -/
abbrev JSStr := List Nat

/-- Code points of a Lean string literal, used to write `JSStr` constants. -/
def strOf (s : String) : JSStr :=
  s.data.map Char.toNat

/-- JS `a.startsWith(b)`-style check used to implement substring search. -/
def leadsWith : JSStr → JSStr → Bool
  | [], _ => true
  | _ :: _, [] => false
  | a :: as, b :: bs => a == b && leadsWith as bs

/-- JS `hay.includes(needle)`: substring containment. -/
def hasSub (needle : JSStr) : JSStr → Bool
  | [] => needle.isEmpty
  | c :: cs => leadsWith needle (c :: cs) || hasSub needle cs

/-- JS `s.split(sep)` for a single-code-point separator. -/
def splitOnChar (sep : Nat) : JSStr → List JSStr
  | [] => [[]]
  | c :: cs =>
    let r := splitOnChar sep cs
    if c == sep then [] :: r
    else
      match r with
      | [] => [[c]]
      | h :: t => (c :: h) :: t

/-- The character class of the regex `/[<>:"\/\\|?*]+/` in `getFileName`
(line 42 of `script.js`). -/
def invalidChars : JSStr :=
  strOf "<>:\"/\\|?*"

/-- Membership in the invalid-filename-character class. -/
def isInvalid (c : Nat) : Bool :=
  invalidChars.any (fun d => c == d)

/-- ASCII whitespace as removed by JS `String.prototype.trim` (line 44). -/
def isWs (c : Nat) : Bool :=
  c == 32 || c == 9 || c == 10 || c == 11 || c == 12 || c == 13

/-- `text.replace(/[<>:"\/\\|?*]+/g, '-')` (line 42): every maximal run of
invalid characters becomes a single hyphen (code point 45).  The boolean
argument records whether the previous character was part of such a run. -/
def replaceInvalidRuns : Bool → JSStr → JSStr
  | _, [] => []
  | prev, c :: cs =>
    if isInvalid c then
      (if prev then [] else [45]) ++ replaceInvalidRuns true cs
    else
      c :: replaceInvalidRuns false cs

/-- `text.replace(/[-]{2,}/g, '-')` (line 43): every maximal run of two or
more hyphens becomes a single hyphen; since a lone hyphen is left alone,
every maximal hyphen run collapses to one hyphen.  The boolean argument
records whether the previous character was a hyphen. -/
def collapseHyphens : Bool → JSStr → JSStr
  | _, [] => []
  | prev, c :: cs =>
    if c == 45 then
      (if prev then [] else [45]) ++ collapseHyphens true cs
    else
      c :: collapseHyphens false cs

/-- Remove trailing ASCII whitespace (the right half of JS `trim`). -/
def rstripWs : JSStr → JSStr
  | [] => []
  | c :: cs =>
    match rstripWs cs with
    | [] => if isWs c then [] else [c]
    | r => c :: r

/-- JS `s.trim()` (line 44): strip whitespace from both ends. -/
def trim (s : JSStr) : JSStr :=
  rstripWs (s.dropWhile isWs)

/-- JS `s.toLowerCase()` restricted to the basic latin letters: code points
65–90 (`A`–`Z`) map to 97–122 (`a`–`z`); everything else is unchanged. -/
def toLowerChar (c : Nat) : Nat :=
  if 65 ≤ c ∧ c ≤ 90 then c + 32 else c

/-- JS `s.toLowerCase()` (line 45) applied pointwise. -/
def toLowerStr (s : JSStr) : JSStr :=
  s.map toLowerChar

/-- Modelled from the spec: the external `sanitize-filename` library invoked
on line 41 is not part of this repository; §4.1 describes its contribution
as "Strip characters illegal on common filesystems".  It is modelled as
removing the illegal character set and the ASCII control characters. -/
def sanitize (s : JSStr) : JSStr :=
  s.filter (fun c => !(isInvalid c || decide (c < 32)))

/-- `getFileName` (lines 40–46 of `script.js`): sanitize, replace invalid
character runs with hyphens, collapse hyphen runs, trim, lowercase. -/
def getFileName (text : JSStr) : JSStr :=
  toLowerStr (trim (collapseHyphens false (replaceInvalidRuns false (sanitize text))))

/-- One parsed feed entry, holding the fields `script.js` reads.  `xml2js`
wraps every element in a one-element array and the script always reads
index 0; the model stores the unwrapped values.  `title` is
`entry.title[0]['_']` (`none` when the text node is absent), `inReplyTo`
is the presence of `entry['thr:in-reply-to']`, `draftFlag` is
`entry['app:control']?.[0]?.['app:draft']?.[0]`, `content` is
`entry.content?.[0]?.['_']`, and `category` is the list of the
`cat.$.term` strings (`none` when the element is absent). -/
structure Entry where
  id : JSStr
  title : Option JSStr
  published : JSStr
  inReplyTo : Bool
  draftFlag : Option JSStr
  content : Option JSStr
  category : Option (List JSStr)

/-- The post filter (lines 70–73):
`entry.id[0].includes('.post-') && !entry['thr:in-reply-to']`. -/
def isPost (e : Entry) : Bool :=
  hasSub (strOf ".post-") e.id && !e.inReplyTo

/-- The reserved category term excluded by `extractTags` (line 52). -/
def reservedKind : JSStr :=
  strOf "http://schemas.google.com/blogger/2008/kind#post"

/-- `extractTags` (lines 49–55).  Categories are modelled by their
`$.term` strings, so the source's `.filter(...).map(tag => tag.$.term)`
becomes a single filter. -/
def extractTags (e : Entry) : List JSStr :=
  match e.category with
  | some cats => cats.filter (fun t => !(t == reservedKind))
  | none => []

/-- `title.replace(/'/g, "''")` (line 80): double every single quote
(code point 39). -/
def escapeQuotes (s : JSStr) : JSStr :=
  s.flatMap (fun c => if c == 39 then [39, 39] else [c])

/-- The display title (line 80):
`entry.title[0]['_']?.replace(/'/g, "''") || 'Untitled'`.  A JS string is
falsy exactly when it is empty, so both an absent and an empty title fall
back to `'Untitled'`. -/
def displayTitle (e : Entry) : JSStr :=
  match e.title with
  | some t =>
    let esc := escapeQuotes t
    if esc = [] then strOf "Untitled" else esc
  | none => strOf "Untitled"

/-- The post id (line 81): `entry.id[0].split('-').pop()`. -/
def postIdOf (e : Entry) : JSStr :=
  (splitOnChar 45 e.id).getLastD []

/-- The draft flag (line 85):
`entry['app:control']?.[0]?.['app:draft']?.[0] === 'yes'`. -/
def draftOf (e : Entry) : Bool :=
  e.draftFlag == some (strOf "yes")

/-- JS template interpolation of a boolean. -/
def boolStr : Bool → JSStr
  | true => strOf "true"
  | false => strOf "false"

/-- JS `Array.prototype.join(sep)`. -/
def joinWith (sep : JSStr) : List JSStr → JSStr
  | [] => []
  | [x] => x
  | x :: y :: ys => x ++ sep ++ joinWith sep (y :: ys)

/-- ``tags.map(tag => `'${tag}'`).join(', ')`` (line 102). -/
def renderTags (tags : List JSStr) : JSStr :=
  joinWith (strOf ", ") (tags.map (fun t => [39] ++ t ++ [39]))

/-- The optional tags line (line 102):
``tags.length ? `tags: [...]\n` : ''``. -/
def tagsField (e : Entry) : JSStr :=
  let tags := extractTags e
  if tags.length ≠ 0 then strOf "tags: [" ++ renderTags tags ++ strOf "]\n"
  else []

/-- The body HTML passed to the renderer (lines 95–98):
`entry.content?.[0]?.['_']`, defaulting to the empty string. -/
def contentOf (e : Entry) : JSStr :=
  match e.content with
  | some c => c
  | none => []

/-- Modelled from the spec: the external `turndown` HTML-to-Markdown
renderer (line 99) is not part of this repository; §4.4 gives its contract
as a total conversion where "Empty input produces empty output".  The
conversion itself is abstracted as the identity on code-point lists, which
satisfies that contract. -/
def turndown (html : JSStr) : JSStr :=
  html

/-- The front-matter block (line 103):
```---\ntitle: '${title}'\ndate: ${published}\ndraft: ${draft}\n${tagsField}---` ``. -/
def fileHeader (e : Entry) : JSStr :=
  strOf "---\ntitle: '" ++ displayTitle e ++ strOf "'\ndate: " ++ e.published
    ++ strOf "\ndraft: " ++ boolStr (draftOf e) ++ strOf "\n" ++ tagsField e
    ++ strOf "---"

/-- The full file contents (line 106): ```${fileHeader}\n\n${markdown}` ``. -/
def fileBody (e : Entry) : JSStr :=
  fileHeader e ++ strOf "\n\n" ++ turndown (contentOf e)

/-- The base file name (line 105): ```${sanitizedTitle}.md` `` (the
constant output directory prefix added by `path.join` is omitted). -/
def fileNameOf (e : Entry) : JSStr :=
  getFileName (displayTitle e) ++ strOf ".md"

/-- The mutable state of a run: `stats.posts` (line 82) and the list of
`(file name, contents)` pairs written so far (line 106), in order. -/
structure ImportState where
  posts : List (JSStr × JSStr) := []
  files : List (JSStr × JSStr) := []
deriving DecidableEq

/-- The per-post loop of `bloggerImport` (lines 79–107): push the
`(title, id)` pair onto `stats.posts`, sanitize the title, skip the post
when the sanitized title is empty or a single hyphen (lines 90–93),
otherwise record the written file. -/
def importLoop : List Entry → ImportState → ImportState
  | [], st => st
  | e :: es, st =>
    let title := displayTitle e
    let st1 : ImportState := { st with posts := st.posts ++ [(title, postIdOf e)] }
    let sanitizedTitle := getFileName title
    if sanitizedTitle = [] ∨ sanitizedTitle = [45] then
      importLoop es st1
    else
      importLoop es { st1 with files := st1.files ++ [(fileNameOf e, fileBody e)] }

/-- `bloggerImport` on a successfully parsed feed (lines 69–107): filter
the entries to posts, then run the per-post loop from the empty state. -/
def runImport (entries : List Entry) : ImportState :=
  importLoop (entries.filter isPost) {}

/-- `writeSummary` (lines 127–136): the summary's `totalPosts` field is
`stats.posts.length`. -/
def totalPosts (st : ImportState) : Nat :=
  st.posts.length

/-- The file produced for one post, if any: `none` when the sanitized
title is unusable (lines 90–93), otherwise the `(name, contents)` pair
passed to `writeToFile` (lines 105–106). -/
def postFile (e : Entry) : Option (JSStr × JSStr) :=
  if getFileName (displayTitle e) = [] ∨ getFileName (displayTitle e) = [45] then none
  else some (fileNameOf e, fileBody e)

/-- The per-post loop refined with a write-failure model `wf`: `writeToFile`
(lines 117–124) catches its own errors, so a failing write (modelled by
`wf` returning `true` on the file name) records no file but the loop still
continues with the next post. -/
def importLoopW (wf : JSStr → Bool) : List Entry → ImportState → ImportState
  | [], st => st
  | e :: es, st =>
    let title := displayTitle e
    let st1 : ImportState := { st with posts := st.posts ++ [(title, postIdOf e)] }
    let sanitizedTitle := getFileName title
    if sanitizedTitle = [] ∨ sanitizedTitle = [45] then
      importLoopW wf es st1
    else if wf (fileNameOf e) then
      importLoopW wf es st1
    else
      importLoopW wf es { st1 with files := st1.files ++ [(fileNameOf e, fileBody e)] }

/-- The ways the feed-level stage of `bloggerImport` can go: the input file
is unreadable (line 62 throws), the XML is malformed (line 63 throws),
`result.feed?.entry` is missing (lines 65–67 throw), or parsing succeeds
with a list of entries. -/
inductive FeedInput where
  | unreadable
  | malformedXml
  | missingFeedEntry
  | ok (entries : List Entry)

/-- `bloggerImport` with its `try`/`catch` (lines 61–113): any feed-level
failure reaches the outer `catch`, which calls `process.exit(1)`
(modelled by `Except.error 1`); on a parsed feed the per-post loop runs to
completion and the summary state is returned. -/
def runProgram (wf : JSStr → Bool) : FeedInput → Except Nat ImportState
  | .unreadable => .error 1
  | .malformedXml => .error 1
  | .missingFeedEntry => .error 1
  | .ok entries => .ok (importLoopW wf (entries.filter isPost) {})

/-- The top-level argument check (lines 22–25): `process.argv` contains
the interpreter and script paths before the user arguments, so
`process.argv.length < 4` means fewer than two user arguments; the script
then prints usage and exits with status 1. -/
def parseArgs (argv : List JSStr) : Except Nat (JSStr × JSStr) :=
  if argv.length < 4 then .error 1
  else .ok (argv.getD 2 [], argv.getD 3 [])

/-- The whole script (lines 22–25 and 139): the argument check runs before
`bloggerImport`, so a usage error terminates the process before any
filesystem operation. -/
def mainModel (argv : List JSStr) (wf : JSStr → Bool) (input : FeedInput) :
    Except Nat ImportState :=
  match parseArgs argv with
  | .error c => .error c
  | .ok _ => runProgram wf input

/-! ## Structural lemmas about the import loop -/

theorem importLoop_posts (es : List Entry) :
    ∀ st : ImportState, (importLoop es st).posts =
      st.posts ++ es.map (fun e => (displayTitle e, postIdOf e)) := by
  induction es with
  | nil => intro st; simp [importLoop]
  | cons e es ih =>
    intro st
    simp only [importLoop, List.map_cons]
    split
    · rw [ih]; simp
    · rw [ih]; simp

theorem importLoop_files (es : List Entry) :
    ∀ st : ImportState, (importLoop es st).files =
      st.files ++ es.filterMap postFile := by
  induction es with
  | nil => intro st; simp [importLoop]
  | cons e es ih =>
    intro st
    simp only [importLoop, List.filterMap_cons]
    by_cases h : getFileName (displayTitle e) = [] ∨ getFileName (displayTitle e) = [45]
    · rw [if_pos h, ih]
      simp [postFile, h]
    · rw [if_neg h, ih]
      simp [postFile, h]

theorem importLoopW_posts (wf : JSStr → Bool) (es : List Entry) :
    ∀ st : ImportState, (importLoopW wf es st).posts =
      st.posts ++ es.map (fun e => (displayTitle e, postIdOf e)) := by
  induction es with
  | nil => intro st; simp [importLoopW]
  | cons e es ih =>
    intro st
    simp only [importLoopW, List.map_cons]
    split
    · rw [ih]; simp
    · split
      · rw [ih]; simp
      · rw [ih]; simp

/-! ## Character-level lemmas for the filename sanitizer -/

/-- No two adjacent hyphens (code point 45) occur in the string. -/
def noHyphenRun : JSStr → Bool
  | [] => true
  | [_] => true
  | c :: d :: t => !(c == 45 && d == 45) && noHyphenRun (d :: t)

theorem noHyphenRun_cons (c : Nat) (t : JSStr) :
    noHyphenRun (c :: t) = true ↔
      (noHyphenRun t = true ∧ ∀ d, t.head? = some d → ¬(c = 45 ∧ d = 45)) := by
  cases t with
  | nil => simp [noHyphenRun]
  | cons d t =>
    simp only [noHyphenRun, List.head?_cons, Bool.and_eq_true, Bool.not_eq_true']
    constructor
    · rintro ⟨h1, h2⟩
      refine ⟨h2, ?_⟩
      rintro d' hd' ⟨rfl, rfl⟩
      simp at hd'
      subst hd'
      simp at h1
    · rintro ⟨h2, h1⟩
      refine ⟨?_, h2⟩
      by_contra hb
      simp only [Bool.not_eq_false, Bool.and_eq_true, beq_iff_eq] at hb
      exact h1 d rfl ⟨hb.1, hb.2⟩

theorem mem_replaceInvalidRuns {c : Nat} :
    ∀ (prev : Bool) (l : JSStr), c ∈ replaceInvalidRuns prev l → isInvalid c = false
  | _, [], h => by simp [replaceInvalidRuns] at h
  | prev, d :: ds, h => by
    simp only [replaceInvalidRuns] at h
    by_cases hd : isInvalid d
    · rw [if_pos hd] at h
      rcases List.mem_append.1 h with h' | h'
      · have hc : c = 45 := by
          cases prev
          · simpa using h'
          · simp at h'
        subst hc
        decide
      · exact mem_replaceInvalidRuns true ds h'
    · rw [if_neg hd] at h
      rcases List.mem_cons.1 h with rfl | h'
      · simpa using hd
      · exact mem_replaceInvalidRuns false ds h'

theorem mem_collapseHyphens {c : Nat} :
    ∀ (prev : Bool) (l : JSStr), c ∈ collapseHyphens prev l → c ∈ l ∨ c = 45
  | _, [], h => by simp [collapseHyphens] at h
  | prev, d :: ds, h => by
    simp only [collapseHyphens] at h
    by_cases hd : d == 45
    · rw [if_pos hd] at h
      rcases List.mem_append.1 h with h' | h'
      · right
        cases prev
        · simpa using h'
        · simp at h'
      · rcases mem_collapseHyphens true ds h' with h'' | h''
        · exact Or.inl (List.mem_cons_of_mem d h'')
        · exact Or.inr h''
    · rw [if_neg hd] at h
      rcases List.mem_cons.1 h with rfl | h'
      · exact Or.inl (List.mem_cons_self c ds)
      · rcases mem_collapseHyphens false ds h' with h'' | h''
        · exact Or.inl (List.mem_cons_of_mem d h'')
        · exact Or.inr h''

theorem mem_rstripWs {c : Nat} : ∀ l : JSStr, c ∈ rstripWs l → c ∈ l
  | [], h => by simp [rstripWs] at h
  | d :: ds, h => by
    simp only [rstripWs] at h
    cases hr : rstripWs ds with
    | nil =>
      simp only [hr] at h
      by_cases hw : isWs d
      · rw [if_pos hw] at h
        cases h
      · rw [if_neg hw] at h
        rcases List.mem_cons.1 h with rfl | h'
        · exact List.mem_cons_self c ds
        · cases h'
    | cons r rs =>
      simp only [hr] at h
      rcases List.mem_cons.1 h with rfl | h'
      · exact List.mem_cons_self c ds
      · exact List.mem_cons_of_mem d (mem_rstripWs ds (by rw [hr]; exact h'))

theorem mem_dropWhile {c : Nat} {p : Nat → Bool} :
    ∀ l : JSStr, c ∈ l.dropWhile p → c ∈ l
  | [], h => by simp [List.dropWhile] at h
  | d :: ds, h => by
    rw [List.dropWhile_cons] at h
    split at h
    · exact List.mem_cons_of_mem d (mem_dropWhile ds h)
    · exact h

theorem toLowerChar_not_invalid {c : Nat} (h : isInvalid c = false) :
    isInvalid (toLowerChar c) = false := by
  have hc : invalidChars = [60, 62, 58, 34, 47, 92, 124, 63, 42] := by decide
  simp only [isInvalid, hc, List.any_cons, List.any_nil, Bool.or_eq_false_iff,
    beq_eq_false_iff_ne, ne_eq, and_true] at h ⊢
  simp only [toLowerChar]
  split <;> omega

theorem toLowerChar_not_upper (c : Nat) :
    ¬(65 ≤ toLowerChar c ∧ toLowerChar c ≤ 90) := by
  simp only [toLowerChar]
  split <;> omega

theorem toLowerChar_eq_45 {c : Nat} : toLowerChar c = 45 ↔ c = 45 := by
  simp only [toLowerChar]
  split <;> omega

theorem collapseHyphens_true_head :
    ∀ l : JSStr, (collapseHyphens true l).head? ≠ some 45
  | [] => by simp [collapseHyphens]
  | d :: ds => by
    simp only [collapseHyphens]
    by_cases hd : d == 45
    · rw [if_pos hd]
      simpa using collapseHyphens_true_head ds
    · rw [if_neg hd]
      simp only [List.nil_append, List.head?_cons, ne_eq, Option.some.injEq]
      simp only [beq_iff_eq] at hd
      exact hd

theorem noHyphenRun_collapseHyphens : ∀ (l : JSStr) (prev : Bool),
    noHyphenRun (collapseHyphens prev l) = true
  | [], _ => by simp [collapseHyphens, noHyphenRun]
  | d :: ds, prev => by
    simp only [collapseHyphens]
    by_cases hd : d == 45
    · rw [if_pos hd]
      cases prev with
      | true => simpa using noHyphenRun_collapseHyphens ds true
      | false =>
        show noHyphenRun (45 :: collapseHyphens true ds) = true
        rw [noHyphenRun_cons]
        refine ⟨noHyphenRun_collapseHyphens ds true, ?_⟩
        rintro d' hd' ⟨-, rfl⟩
        exact collapseHyphens_true_head ds hd'
    · rw [if_neg hd]
      rw [noHyphenRun_cons]
      refine ⟨noHyphenRun_collapseHyphens ds false, ?_⟩
      rintro d' _ ⟨rfl, -⟩
      exact hd rfl

theorem noHyphenRun_tail {c : Nat} {t : JSStr}
    (h : noHyphenRun (c :: t) = true) : noHyphenRun t = true :=
  ((noHyphenRun_cons c t).1 h).1

theorem noHyphenRun_dropWhile {p : Nat → Bool} :
    ∀ l : JSStr, noHyphenRun l = true → noHyphenRun (l.dropWhile p) = true
  | [], h => h
  | d :: ds, h => by
    rw [List.dropWhile_cons]
    split
    · exact noHyphenRun_dropWhile ds (noHyphenRun_tail h)
    · exact h

theorem rstripWs_head : ∀ {l : JSStr} {d : Nat} {t : JSStr},
    rstripWs l = d :: t → l.head? = some d := by
  intro l d t h
  cases l with
  | nil => simp [rstripWs] at h
  | cons c cs =>
    simp only [rstripWs] at h
    cases hr : rstripWs cs with
    | nil =>
      simp only [hr] at h
      by_cases hw : isWs c
      · rw [if_pos hw] at h
        cases h
      · rw [if_neg hw] at h
        simp only [List.cons.injEq] at h
        simp [h.1]
    | cons r rs =>
      simp only [hr] at h
      simp only [List.cons.injEq] at h
      simp [h.1]

theorem noHyphenRun_rstripWs : ∀ l : JSStr,
    noHyphenRun l = true → noHyphenRun (rstripWs l) = true
  | [], h => h
  | c :: cs, h => by
    simp only [rstripWs]
    cases hr : rstripWs cs with
    | nil =>
      simp only [hr]
      by_cases hw : isWs c
      · rw [if_pos hw]
        rfl
      · rw [if_neg hw]
        rfl
    | cons r rs =>
      simp only [hr]
      rw [noHyphenRun_cons]
      refine ⟨hr ▸ noHyphenRun_rstripWs cs (noHyphenRun_tail h), ?_⟩
      rintro d hd hcd
      simp only [List.head?_cons, Option.some.injEq] at hd
      subst hd
      exact ((noHyphenRun_cons c cs).1 h).2 r (rstripWs_head hr) hcd

theorem escapeQuotes_eq_nil {t : JSStr} : escapeQuotes t = [] ↔ t = [] := by
  cases t with
  | nil => simp [escapeQuotes]
  | cons c cs =>
    simp only [escapeQuotes, List.flatMap_cons]
    constructor
    · intro h
      exfalso
      rcases List.append_eq_nil.1 h with ⟨h1, -⟩
      split at h1 <;> simp at h1
    · intro h
      cases h

theorem noHyphenRun_map_toLower : ∀ l : JSStr,
    noHyphenRun l = true → noHyphenRun (l.map toLowerChar) = true
  | [], h => h
  | c :: cs, h => by
    rw [List.map_cons, noHyphenRun_cons]
    refine ⟨noHyphenRun_map_toLower cs (noHyphenRun_tail h), ?_⟩
    rintro d hd ⟨hc45, hd45⟩
    cases cs with
    | nil => simp at hd
    | cons c' cs' =>
      simp only [List.map_cons, List.head?_cons, Option.some.injEq] at hd
      exact ((noHyphenRun_cons c (c' :: cs')).1 h).2 c' rfl
        ⟨toLowerChar_eq_45.1 hc45, toLowerChar_eq_45.1 (hd ▸ hd45)⟩

/-! ## Concrete entries used as test inputs -/

/-- Entry A of the spec's §8 scenario: identifier contains `.post-`, no
reply-to reference. -/
def entryA : Entry :=
  { id := strOf ".post-123", title := some (strOf "Hello World"),
    published := strOf "2024-01-02T03:04:05.000-07:00", inReplyTo := false,
    draftFlag := none, content := some (strOf "<p>Hi</p>"), category := none }

/-- Entry B of the spec's §8 scenario: a comment (has a reply-to
reference). -/
def entryB : Entry :=
  { id := strOf ".post-456", title := some (strOf "Re: Hello World"),
    published := strOf "2024-01-02T04:00:00.000-07:00", inReplyTo := true,
    draftFlag := none, content := some (strOf "Nice"), category := none }

/-- Entry C of the spec's §8 scenario: a page, not a post. -/
def entryC : Entry :=
  { id := strOf ".page-789", title := some (strOf "About"),
    published := strOf "2024-01-02T05:00:00.000-07:00", inReplyTo := false,
    draftFlag := none, content := some (strOf "About me"), category := none }

/-- A post whose title consists only of invalid filename characters, so its
sanitized filename is empty. -/
def entryBadTitle : Entry :=
  { id := strOf ".post-13", title := some (strOf "???"),
    published := strOf "2024-02-02T00:00:00.000-07:00", inReplyTo := false,
    draftFlag := none, content := some (strOf "body"), category := none }

/-- A post with user categories plus the reserved kind marker. -/
def entryTagged : Entry :=
  { id := strOf ".post-7", title := some (strOf "Trip"),
    published := strOf "2024-03-03T00:00:00.000-07:00", inReplyTo := false,
    draftFlag := none, content := some (strOf "fun"),
    category := some [reservedKind, strOf "travel", strOf "food"] }

/-- A post with no category element. -/
def entryNoCat : Entry :=
  { id := strOf ".post-8", title := some (strOf "Plain"),
    published := strOf "2024-03-04T00:00:00.000-07:00", inReplyTo := false,
    draftFlag := none, content := some (strOf "text"), category := none }

/-- A post whose title element is present but holds the empty string. -/
def entryEmptyTitle : Entry :=
  { id := strOf ".post-2", title := some [],
    published := strOf "2024-04-04T00:00:00.000-07:00", inReplyTo := false,
    draftFlag := none, content := none, category := none }

/-- A post whose title contains a single quote. -/
def entryCat : Entry :=
  { id := strOf ".post-11", title := some (strOf "Cat's Diary"),
    published := strOf "2024-05-05T00:00:00.000-07:00", inReplyTo := false,
    draftFlag := none, content := some (strOf "meow"), category := none }

/-- A post with no title element. -/
def entryNoTitle : Entry :=
  { id := strOf ".post-12", title := none,
    published := strOf "2024-06-06T00:00:00.000-07:00", inReplyTo := false,
    draftFlag := none, content := some (strOf "x"), category := none }

/-- A post with no draft flag and no body content. -/
def entryNoBody : Entry :=
  { id := strOf ".post-14", title := some (strOf "Empty"),
    published := strOf "2024-07-07T00:00:00.000-07:00", inReplyTo := false,
    draftFlag := none, content := none, category := none }

/-! ## The claimed properties -/

/-- **C1.** For the feed `[A, B, C]` where A has identifier `.post-123` and
no reply-to, B has identifier `.post-456` and a reply-to, and C has
identifier `.page-789`: exactly entry A is classified as a Post, exactly
one Markdown file is written, and the summary's `totalPosts` equals 1. -/
theorem spec_c1_post_classification :
    isPost entryA = true ∧ isPost entryB = false ∧ isPost entryC = false ∧
    (runImport [entryA, entryB, entryC]).files.length = 1 ∧
    totalPosts (runImport [entryA, entryB, entryC]) = 1 := by
  decide

/-- **C2.** For every input title, the output of the filename sanitizer
`getFileName` contains no character of the invalid set `<>:"/\|?*`, no two
consecutive hyphens, and no uppercase basic-latin letter (code points
65–90), i.e. every letter in it is lowercase. -/
theorem spec_c2_sanitizer_output_safe (text : JSStr) :
    (getFileName text).all (fun c => !(isInvalid c)) = true ∧
    noHyphenRun (getFileName text) = true ∧
    (getFileName text).all (fun c => !(decide (65 ≤ c ∧ c ≤ 90))) = true := by
  refine ⟨?_, ?_, ?_⟩
  · rw [List.all_eq_true]
    intro c hc
    simp only [getFileName, toLowerStr, trim] at hc
    obtain ⟨a, ha, rfl⟩ := List.mem_map.1 hc
    have h1 : a ∈ collapseHyphens false (replaceInvalidRuns false (sanitize text)) :=
      mem_dropWhile _ (mem_rstripWs _ ha)
    have h2 : isInvalid a = false := by
      rcases mem_collapseHyphens false _ h1 with h' | h'
      · exact mem_replaceInvalidRuns false _ h'
      · subst h'
        decide
    simp [toLowerChar_not_invalid h2]
  · simp only [getFileName, toLowerStr, trim]
    exact noHyphenRun_map_toLower _
      (noHyphenRun_rstripWs _
        (noHyphenRun_dropWhile _ (noHyphenRun_collapseHyphens _ false)))
  · rw [List.all_eq_true]
    intro c hc
    simp only [getFileName, toLowerStr] at hc
    obtain ⟨a, -, rfl⟩ := List.mem_map.1 hc
    simp only [Bool.not_eq_true', decide_eq_false_iff_not]
    exact toLowerChar_not_upper a

/-- **C3.** A Post whose title sanitizes to the empty string or a single
hyphen is skipped: its `(title, id)` pair still enters the accumulator,
no file is written for it, and the loop continues with the remaining
posts. -/
theorem spec_c3_unusable_filename_skipped (e : Entry) (es : List Entry)
    (st : ImportState)
    (hu : getFileName (displayTitle e) = [] ∨ getFileName (displayTitle e) = [45]) :
    importLoop (e :: es) st =
      importLoop es { st with posts := st.posts ++ [(displayTitle e, postIdOf e)] } ∧
    (importLoop (e :: es) st).files = (importLoop es st).files := by
  constructor
  · simp only [importLoop]
    rw [if_pos hu]
  · have hpf : postFile e = none := by
      unfold postFile
      rw [if_pos hu]
    rw [importLoop_files, importLoop_files]
    simp [List.filterMap_cons, hpf]

/-- Witness for C3 at a concrete post whose title `???` sanitizes to the
empty string. -/
theorem spec_c3_witness :
    (getFileName (displayTitle entryBadTitle) = [] ∨
      getFileName (displayTitle entryBadTitle) = [45]) ∧
    (importLoop [entryBadTitle] {}).files = (importLoop [] ({} : ImportState)).files :=
  ⟨Or.inl (by decide),
   (spec_c3_unusable_filename_skipped entryBadTitle [] {} (Or.inl (by decide))).2⟩

/-- **C4.** The summary's `totalPosts` counts every classified Post,
including those skipped for an unusable filename, so it can exceed the
number of files written: in general it equals the number of entries
passing the post filter, and on the feed `[entryBadTitle]` it is 1 while
no file is written. -/
theorem spec_c4_totalPosts_counts_classified :
    (∀ entries : List Entry,
      totalPosts (runImport entries) = (entries.filter isPost).length) ∧
    totalPosts (runImport [entryBadTitle]) = 1 ∧
    (runImport [entryBadTitle]).files.length = 0 := by
  refine ⟨?_, by decide, by decide⟩
  intro entries
  simp [runImport, totalPosts, importLoop_posts]

/-- **C5.** The tag extractor returns exactly the category terms different
from the reserved kind marker, in order with duplicates preserved (it is
the evident filter); an entry with no category element yields `[]`, and
its front-matter block then contains no tags line at all. -/
theorem spec_c5_tag_extractor (e : Entry) :
    (∀ cats, e.category = some cats →
      extractTags e = cats.filter (fun t => !(t == reservedKind))) ∧
    (e.category = none → extractTags e = [] ∧
      fileHeader e = strOf "---\ntitle: '" ++ displayTitle e ++ strOf "'\ndate: "
        ++ e.published ++ strOf "\ndraft: " ++ boolStr (draftOf e) ++ strOf "\n"
        ++ strOf "---") := by
  constructor
  · intro cats hcats
    simp [extractTags, hcats]
  · intro hnone
    have he : extractTags e = [] := by simp [extractTags, hnone]
    refine ⟨he, ?_⟩
    simp [fileHeader, tagsField, he]

/-- Witness for C5: the spec's §8 category list yields exactly
`["travel", "food"]`, and an entry with no categories yields `[]`. -/
theorem spec_c5_witness :
    extractTags entryTagged = [strOf "travel", strOf "food"] ∧
    extractTags entryNoCat = [] := by
  constructor
  · rw [(spec_c5_tag_extractor entryTagged).1
      [reservedKind, strOf "travel", strOf "food"] rfl]
    decide
  · exact ((spec_c5_tag_extractor entryNoCat).2 rfl).1

/-- **C6, counterexample.** The claim states that whenever the title is
present the display title is the quote-escaped title; at a present but
empty title the code instead falls back to `Untitled` (JS `||` treats the
empty string as falsy), so the claim as stated fails. -/
theorem spec_c6_counterexample :
    entryEmptyTitle.title = some [] ∧ escapeQuotes [] = [] ∧
    displayTitle entryEmptyTitle ≠ escapeQuotes [] := by
  decide

/-- **C6, amended.** For every Post the display title is the entry's title
with each single quote doubled and all other characters preserved, except
that an absent *or empty* title yields the literal `Untitled`; in
particular `Cat's Diary` appears as `Cat''s Diary`. -/
theorem spec_c6_display_title (e : Entry) :
    (∀ t, e.title = some t → t ≠ [] → displayTitle e = escapeQuotes t) ∧
    ((e.title = none ∨ e.title = some []) → displayTitle e = strOf "Untitled") ∧
    displayTitle entryCat = strOf "Cat''s Diary" := by
  refine ⟨?_, ?_, by decide⟩
  · intro t ht hne
    simp only [displayTitle, ht]
    rw [if_neg (fun h => hne (escapeQuotes_eq_nil.1 h))]
  · rintro (ht | ht) <;> simp [displayTitle, ht, escapeQuotes]

/-- Witness for C6 (amended) at the concrete title `Cat's Diary`. -/
theorem spec_c6_witness :
    entryCat.title = some (strOf "Cat's Diary") ∧
    displayTitle entryCat = escapeQuotes (strOf "Cat's Diary") :=
  ⟨rfl, (spec_c6_display_title entryCat).1 (strOf "Cat's Diary") rfl (by decide)⟩

/-- **C7.** Every written file is the front-matter block — `---` lines
around `title` (single-quoted), `date` (the raw published timestamp),
`draft` (false when the nested flag is absent) and the optional tags
line — followed by one blank line and the rendered body; an empty body
still yields the well-formed block followed by the blank line and nothing
else. -/
theorem spec_c7_file_layout (e : Entry) :
    fileBody e = strOf "---\n" ++ strOf "title: '" ++ displayTitle e ++ strOf "'\n"
      ++ strOf "date: " ++ e.published ++ strOf "\n"
      ++ strOf "draft: " ++ boolStr (draftOf e) ++ strOf "\n"
      ++ tagsField e ++ strOf "---" ++ strOf "\n\n" ++ turndown (contentOf e) ∧
    (e.draftFlag = none → draftOf e = false) ∧
    ((e.content = none ∨ e.content = some []) →
      turndown (contentOf e) = [] ∧ fileBody e = fileHeader e ++ strOf "\n\n") := by
  refine ⟨?_, ?_, ?_⟩
  · have h1 : strOf "---\ntitle: '" = strOf "---\n" ++ strOf "title: '" := by decide
    have h2 : strOf "'\ndate: " = strOf "'\n" ++ strOf "date: " := by decide
    have h3 : strOf "\ndraft: " = strOf "\n" ++ strOf "draft: " := by decide
    simp only [fileBody, fileHeader, h1, h2, h3, List.append_assoc]
  · intro h
    simp [draftOf, h]
  · rintro (h | h) <;> simp [turndown, contentOf, h, fileBody]

/-- Witness for C7 at a concrete post with no draft flag and no body. -/
theorem spec_c7_witness :
    entryNoBody.draftFlag = none ∧ entryNoBody.content = none ∧
    draftOf entryNoBody = false ∧
    fileBody entryNoBody = fileHeader entryNoBody ++ strOf "\n\n" :=
  ⟨rfl, rfl, (spec_c7_file_layout entryNoBody).2.1 rfl,
   ((spec_c7_file_layout entryNoBody).2.2 (Or.inl rfl)).2⟩

/-- **C8.** Per-post errors (unusable filename, per-file write failure —
the latter modelled by an arbitrary failure predicate `wf`) never abort
the run: on any parsed feed the import completes and the summary still
counts every classified post.  Feed-level errors (unreadable input,
malformed XML, missing `feed.entry`) abort the run with exit status 1. -/
theorem spec_c8_error_semantics (wf : JSStr → Bool) (entries : List Entry) :
    (∃ st, runProgram wf (.ok entries) = .ok st ∧
      totalPosts st = (entries.filter isPost).length) ∧
    runProgram wf .unreadable = .error 1 ∧
    runProgram wf .malformedXml = .error 1 ∧
    runProgram wf .missingFeedEntry = .error 1 := by
  refine ⟨⟨importLoopW wf (entries.filter isPost) {}, rfl, ?_⟩, rfl, rfl, rfl⟩
  simp [totalPosts, importLoopW_posts]

/-- **C9.** With fewer than the two required user arguments (after the
interpreter and script entries of `process.argv`) the program terminates
with exit status 1, whatever the feed would have contained — no import
step runs. -/
theorem spec_c9_usage_exit (argv : List JSStr) (wf : JSStr → Bool)
    (input : FeedInput) (h : (argv.drop 2).length < 2) :
    mainModel argv wf input = .error 1 := by
  have hlen : argv.length < 4 := by
    rw [List.length_drop] at h
    omega
  simp [mainModel, parseArgs, hlen]

/-- Witness for C9: invoking with only the interpreter and script paths
exits with status 1. -/
theorem spec_c9_witness :
    (([strOf "node", strOf "script.js"] : List JSStr).drop 2).length < 2 ∧
    mainModel [strOf "node", strOf "script.js"] (fun _ => false) (.ok [entryA])
      = .error 1 :=
  ⟨by decide, spec_c9_usage_exit _ _ _ (by decide)⟩

/-- **C10.** The output filename is derived from the quote-escaped display
title: a title `Cat's Diary` produces the file `cat''s diary.md` (not
`cat's diary.md`, which sanitizing the unescaped title would give), and an
absent title produces `untitled.md`. -/
theorem spec_c10_filename_from_escaped_title :
    (∀ e : Entry, fileNameOf e = getFileName (displayTitle e) ++ strOf ".md") ∧
    (runImport [entryCat]).files.map Prod.fst = [strOf "cat''s diary.md"] ∧
    strOf "cat''s diary.md" ≠ strOf "cat's diary.md" ∧
    getFileName (strOf "Cat's Diary") = strOf "cat's diary" ∧
    (runImport [entryNoTitle]).files.map Prod.fst = [strOf "untitled.md"] := by
  exact ⟨fun e => rfl, by decide, by decide, by decide, by decide⟩

end Blogger2Hugo
